import Mathlib

/-
  Verification of the Dayflow HR hub core: leave-request workflow,
  attendance recorder, payroll calculator and profile editing, as a
  shallow embedding of the client pages (Leave / LeaveApprovals /
  Attendance / Employees / Profile / Payroll) together with the SQL
  schema (generated column, UNIQUE constraint, row-level policies).

  Dates and timestamps are modelled at the granularity the code uses:
  calendar dates as `Int` day numbers, timestamps as `Int` milliseconds.
  Ids are `Nat`. The database is a list of rows; a Supabase
  `insert`/`update` call is a pure function on that list, with the
  declarative pieces of the store (UNIQUE(user_id, date), the
  `net_salary` generated column, the row-level USING clauses)
  folded into the write path exactly as the schema declares them.
-/

namespace Dayflow

/- Enum user_role: ('employee', 'admin'). -/
inductive UserRole
| employee
| admin
deriving DecidableEq, Repr

/- Enum leave_type: ('paid', 'sick', 'unpaid'). -/
inductive LeaveType
| paid
| sick
| unpaid
deriving DecidableEq, Repr

/- Enum leave_status: ('pending', 'approved', 'rejected'). -/
inductive LeaveStatus
| pending
| approved
| rejected
deriving DecidableEq, Repr

/- Enum attendance_status: ('present', 'absent', 'half_day', 'leave'). -/
inductive AttendanceStatus
| present
| absent
| half_day
| leave
deriving DecidableEq, Repr

/- A row of public.profiles (timestamps omitted: no page ever reads or
   writes created_at/updated_at, they are store bookkeeping). -/
structure Profile where
  id : Nat
  employee_id : String
  email : String
  role : UserRole
  first_name : Option String
  last_name : Option String
  phone : Option String
  address : Option String
  department : Option String
  position : Option String
  hire_date : Option String
  profile_picture_url : Option String
deriving DecidableEq, Repr

/- public.is_admin(_user_id): role = 'admin'; the pages compute the same
   predicate as profile?.role === 'admin'. -/
def isAdmin (p : Profile) : Bool :=
  decide (p.role = UserRole.admin)

/- A row of public.leave_requests. -/
structure LeaveRequest where
  id : Nat
  user_id : Nat
  leave_type : LeaveType
  start_date : Int
  end_date : Int
  remarks : Option String
  status : LeaveStatus
  admin_comments : Option String
  reviewed_by : Option Nat
  reviewed_at : Option Int
  created_at : Int
deriving DecidableEq, Repr

/- ------------------------------------------------------------------ -/
/- Leave submission (Leave page: leaveSchema + handleSubmit)          -/
/- ------------------------------------------------------------------ -/

/- The form state of the Leave page dialog. -/
structure LeaveForm where
  leave_type : LeaveType
  start_date : Int
  end_date : Int
  remarks : String
deriving DecidableEq, Repr

/- One zod issue: err.path[0] and err.message. -/
structure FieldError where
  path : String
  message : String
deriving DecidableEq, Repr

/- leaveSchema: z.object with remarks.max(500), then two refinements:
   isAfter(end, start) || isEqual(end, start)  (path end_date), and
   isAfter(start, today) || isEqual(start, today)  (path start_date),
   where today has been truncated to midnight, i.e. calendar-day
   granularity.  (The .min(1) checks on the raw date strings have no
   counterpart once dates are day numbers.) -/
def leaveSchemaErrors (form : LeaveForm) (today : Int) : List FieldError :=
  (if form.remarks.length ≤ 500 then []
   else [⟨"remarks", "Remarks must be less than 500 characters"⟩])
  ++ (if form.start_date ≤ form.end_date then []
      else [⟨"end_date", "End date must be on or after start date"⟩])
  ++ (if today ≤ form.start_date then []
      else [⟨"start_date", "Start date cannot be in the past"⟩])

/- The row handleSubmit inserts: user_id = profile.id, the form fields,
   remarks '' coerced to null, every other column at its schema default
   (status 'pending', comments and review stamps null). -/
def submittedRow (requester : Nat) (form : LeaveForm) (newId : Nat)
    (now : Int) : LeaveRequest :=
  { id := newId
    user_id := requester
    leave_type := form.leave_type
    start_date := form.start_date
    end_date := form.end_date
    remarks := if form.remarks = "" then none else some form.remarks
    status := LeaveStatus.pending
    admin_comments := none
    reviewed_by := none
    reviewed_at := none
    created_at := now }

/- handleSubmit: validateForm() gates the insert; on any schema error
   nothing is written, otherwise exactly one row is inserted. -/
def handleSubmit (db : List LeaveRequest) (requester : Nat)
    (form : LeaveForm) (today : Int) (newId : Nat) (now : Int) :
    Except (List FieldError) (List LeaveRequest) :=
  if leaveSchemaErrors form today = [] then
    Except.ok (db ++ [submittedRow requester form newId now])
  else
    Except.error (leaveSchemaErrors form today)

/- ------------------------------------------------------------------ -/
/- Leave review (LeaveApprovals page: processAction)                  -/
/- ------------------------------------------------------------------ -/

inductive ReviewAction
| approve
| reject
deriving DecidableEq, Repr

/- Row-level USING clause of the leave_requests UPDATE policy
   "Employees can update their pending leave requests":
   auth.uid() = user_id OR public.is_admin(auth.uid()).
   Note that, its name notwithstanding, the clause does not test
   status = 'pending'. -/
def leaveUpdatePermitted (caller : Profile) (r : LeaveRequest) : Bool :=
  decide (caller.id = r.user_id) || isAdmin caller

/- processAction: update({status, admin_comments: comment || null,
   reviewed_by, reviewed_at}).eq('id', selectedRequest.id); the store
   applies it to every row matching the id filter that the UPDATE
   policy admits.  There is no status guard anywhere on this path. -/
def processAction (db : List LeaveRequest) (caller : Profile)
    (requestId : Nat) (action : ReviewAction) (adminComment : String)
    (now : Int) : List LeaveRequest :=
  db.map fun r =>
    if r.id = requestId ∧ leaveUpdatePermitted caller r then
      { r with
        status := match action with
                  | ReviewAction.approve => LeaveStatus.approved
                  | ReviewAction.reject => LeaveStatus.rejected
        admin_comments := if adminComment = "" then none else some adminComment
        reviewed_by := some caller.id
        reviewed_at := some now }
    else r

/- Concrete fixtures for the review state-machine check. -/
def adminReviewer : Profile :=
  { id := 3, employee_id := "EMP003", email := "admin@dayflow.test"
    role := UserRole.admin, first_name := some "Ada", last_name := some "Min"
    phone := none, address := none, department := none, position := none
    hire_date := none, profile_picture_url := none }

def approvedRequest : LeaveRequest :=
  { id := 1, user_id := 7, leave_type := LeaveType.sick
    start_date := 100, end_date := 102, remarks := some "flu"
    status := LeaveStatus.approved, admin_comments := some "get well"
    reviewed_by := some 2, reviewed_at := some 900, created_at := 50 }

/-- C1: the spec demands that review() on a request whose status is not
'pending' fail with InvalidTransition and leave the row untouched, the
two pending transitions being terminal.  The code has no such guard:
processAction's UPDATE carries only an id filter, and the UPDATE policy
(despite being named for pending requests) admits any row the caller
owns or any row at all for an admin.  Evaluating the embedded code at a
request already 'approved': the admin's reject call succeeds and
rewrites status, admin_comments, reviewed_by and reviewed_at, i.e. it
performs the undefined transition approved → rejected instead of
failing. -/
theorem C1_review_not_pending_overwrites :
    approvedRequest.status ≠ LeaveStatus.pending ∧
    processAction [approvedRequest] adminReviewer 1 ReviewAction.reject
        "no" 950 =
      [{ approvedRequest with
         status := LeaveStatus.rejected
         admin_comments := some "no"
         reviewed_by := some 3
         reviewed_at := some 950 }] := by
  decide

/-- C2: submitting a leave request fails with a field-scoped validation
error and writes no row whenever end_date < start_date or
start_date < today, and for every input with end ≥ start, start ≥ today
and remarks within the 500-character bound it inserts exactly one row
with status 'pending' owned by the requester. -/
theorem C2_submit_validation (db : List LeaveRequest) (requester : Nat)
    (form : LeaveForm) (today : Int) (newId : Nat) (now : Int) :
    ((form.end_date < form.start_date ∨ form.start_date < today) →
      ∃ errs, errs ≠ [] ∧
        handleSubmit db requester form today newId now =
          Except.error errs ∧
        (form.end_date < form.start_date →
          ∃ e ∈ errs, e.path = "end_date") ∧
        (form.start_date < today →
          ∃ e ∈ errs, e.path = "start_date")) ∧
    (form.start_date ≤ form.end_date → today ≤ form.start_date →
      form.remarks.length ≤ 500 →
      handleSubmit db requester form today newId now =
        Except.ok (db ++ [submittedRow requester form newId now]) ∧
      (submittedRow requester form newId now).status =
        LeaveStatus.pending ∧
      (submittedRow requester form newId now).user_id = requester) := by
  constructor
  · intro hbad
    have hne2 : leaveSchemaErrors form today ≠ [] := by
      simp only [leaveSchemaErrors, ne_eq, List.append_eq_nil]
      intro hcon
      rcases hbad with h | h
      · have hh : ¬ form.start_date ≤ form.end_date := by omega
        simp [hh] at hcon
      · have hh : ¬ today ≤ form.start_date := by omega
        simp [hh] at hcon
    refine ⟨leaveSchemaErrors form today, hne2,
      by simp [handleSubmit, hne2], ?_, ?_⟩
    · intro h
      have hne : ¬ form.start_date ≤ form.end_date := by omega
      exact ⟨⟨"end_date", "End date must be on or after start date"⟩,
        by simp [leaveSchemaErrors, hne], rfl⟩
    · intro h
      have hne : ¬ today ≤ form.start_date := by omega
      exact ⟨⟨"start_date", "Start date cannot be in the past"⟩,
        by simp [leaveSchemaErrors, hne], rfl⟩
  · intro h1 h2 h3
    refine ⟨?_, rfl, rfl⟩
    simp [handleSubmit, leaveSchemaErrors, h1, h2, h3]

/-- C2 witness: a concrete rejected submission (end before start) and a
concrete accepted one, both obtained from the theorem. -/
theorem C2_submit_validation_witness :
    (∃ errs, errs ≠ [] ∧
      handleSubmit [] 7 ⟨LeaveType.paid, 12, 10, ""⟩ 9 1 100 =
        Except.error errs ∧
      ∃ e ∈ errs, e.path = "end_date") ∧
    (handleSubmit [] 7 ⟨LeaveType.sick, 10, 12, "flu"⟩ 9 1 100 =
      Except.ok ([] ++ [submittedRow 7 ⟨LeaveType.sick, 10, 12, "flu"⟩ 1 100]) ∧
     (submittedRow 7 ⟨LeaveType.sick, 10, 12, "flu"⟩ 1 100).status =
       LeaveStatus.pending ∧
     (submittedRow 7 ⟨LeaveType.sick, 10, 12, "flu"⟩ 1 100).user_id = 7) := by
  constructor
  · have h :=
      (C2_submit_validation [] 7 ⟨LeaveType.paid, 12, 10, ""⟩ 9 1 100).1
        (Or.inl (by decide))
    rcases h with ⟨errs, hne, heq, hend, _⟩
    exact ⟨errs, hne, heq, hend (by decide)⟩
  · exact
      (C2_submit_validation [] 7 ⟨LeaveType.sick, 10, 12, "flu"⟩ 9 1 100).2
        (by decide) (by decide) (by decide)

/- ------------------------------------------------------------------ -/
/- Attendance recorder (Attendance page + schema UNIQUE constraint)   -/
/- ------------------------------------------------------------------ -/

/- A row of public.attendance. -/
structure AttendanceRow where
  id : Nat
  user_id : Nat
  date : Int
  check_in : Option Int
  check_out : Option Int
  status : AttendanceStatus
  notes : Option String
deriving DecidableEq, Repr

/- The error taxonomy the pages distinguish: a unique_violation surfaced
   as the duplicate toast, and the absent-entity failure the spec calls
   NotFound. -/
inductive AppError
| Conflict
| NotFound
deriving DecidableEq, Repr

/- An INSERT into attendance under UNIQUE(user_id, date): the store
   rejects the write with a duplicate-key error (the page maps it to
   the 'already checked in today' toast) and keeps the table intact. -/
def attendanceInsert (db : List AttendanceRow) (row : AttendanceRow) :
    Except AppError (List AttendanceRow) :=
  if db.any (fun r =>
      decide (r.user_id = row.user_id) && decide (r.date = row.date)) then
    Except.error AppError.Conflict
  else
    Except.ok (db ++ [row])

/- The row handleCheckIn inserts: {user_id, date: today, check_in: now,
   status: 'present'}; check_out and notes stay at their null default. -/
def checkInRow (u : Nat) (today now : Int) (newId : Nat) : AttendanceRow :=
  { id := newId
    user_id := u
    date := today
    check_in := some now
    check_out := none
    status := AttendanceStatus.present
    notes := none }

def handleCheckIn (db : List AttendanceRow) (u : Nat) (today now : Int)
    (newId : Nat) : Except AppError (List AttendanceRow) :=
  attendanceInsert db (checkInRow u today now newId)

/- What the caller observes of handleCheckOut: a success toast, a
   silent early return (if (!profile || !todayRecord) return;), or a
   failure toast from the catch branch. -/
inductive CheckOutResult
| success
| silentReturn
| failure (e : AppError)
deriving DecidableEq, Repr

/- todayRecord as computed by fetchAttendance:
   data?.find(r => r.date === today && r.user_id === profile.id). -/
def todayRecordOf (db : List AttendanceRow) (u : Nat) (today : Int) :
    Option AttendanceRow :=
  db.find? (fun r => decide (r.date = today) && decide (r.user_id = u))

/- handleCheckOut: with no todayRecord the handler returns before any
   call to the store; otherwise update({check_out: now}).eq('id',
   todayRecord.id). -/
def handleCheckOut (db : List AttendanceRow) (u : Nat) (today now : Int) :
    CheckOutResult × List AttendanceRow :=
  match todayRecordOf db u today with
  | none => (CheckOutResult.silentReturn, db)
  | some rec =>
      (CheckOutResult.success,
       db.map fun r =>
         if r.id = rec.id then { r with check_out := some now } else r)

/- At most one attendance row per (user_id, date): the content of the
   schema's UNIQUE constraint, as a predicate on the table. -/
def attUnique (db : List AttendanceRow) : Prop :=
  db.Pairwise (fun a b => ¬(a.user_id = b.user_id ∧ a.date = b.date))

/-- C4: a check-in for a (user, date) that already has a row fails with
Conflict and the existing row survives untouched (the store rejects the
insert outright); otherwise check-in appends exactly one new row with
check_in = now and status 'present'; and both attendance operations
preserve the at-most-one-row-per-(user, date) invariant. -/
theorem C4_checkin_unique (db : List AttendanceRow) (u : Nat)
    (today now : Int) (newId : Nat) (hu : attUnique db) :
    ((∃ r ∈ db, r.user_id = u ∧ r.date = today) →
      handleCheckIn db u today now newId = Except.error AppError.Conflict) ∧
    ((¬ ∃ r ∈ db, r.user_id = u ∧ r.date = today) →
      handleCheckIn db u today now newId =
        Except.ok (db ++ [checkInRow u today now newId]) ∧
      attUnique (db ++ [checkInRow u today now newId])) ∧
    attUnique (handleCheckOut db u today now).2 := by
  have hany : (db.any (fun r =>
      decide (r.user_id = u) && decide (r.date = today)) = true) ↔
      ∃ r ∈ db, r.user_id = u ∧ r.date = today := by
    simp [List.any_eq_true]
  refine ⟨?_, ?_, ?_⟩
  · intro hex
    have h := hany.mpr hex
    simp [handleCheckIn, attendanceInsert, checkInRow, h]
  · intro hnex
    have h : db.any (fun r =>
        decide (r.user_id = u) && decide (r.date = today)) = false :=
      Bool.eq_false_iff.mpr (fun ht => hnex (hany.mp ht))
    constructor
    · simp [handleCheckIn, attendanceInsert, checkInRow, h]
    · rw [attUnique, List.pairwise_append]
      refine ⟨hu, List.pairwise_singleton _ _, ?_⟩
      intro a ha b hb
      have hb1 : b = checkInRow u today now newId := List.mem_singleton.mp hb
      subst hb1
      intro hcon
      exact hnex ⟨a, ha, by
        simpa [checkInRow] using hcon⟩
  · rw [handleCheckOut]
    rcases hfind : todayRecordOf db u today with _ | rec
    · exact hu
    · simp only
      apply List.Pairwise.map
        (S := fun a b : AttendanceRow =>
          ¬(a.user_id = b.user_id ∧ a.date = b.date))
      · intro a b hr
        have ha2 : ∀ r : AttendanceRow,
            ((if r.id = rec.id then { r with check_out := some now }
              else r) : AttendanceRow).user_id = r.user_id ∧
            ((if r.id = rec.id then { r with check_out := some now }
              else r) : AttendanceRow).date = r.date := by
          intro r
          by_cases h : r.id = rec.id <;> simp [h]
        rw [(ha2 a).1, (ha2 a).2, (ha2 b).1, (ha2 b).2]
        exact hr
      · exact hu

/-- C4 witness: with one existing row for user 4 on day 10, a second
check-in for (4, 10) is rejected with Conflict, while a first check-in
for user 5 appends one 'present' row and keeps the table duplicate
free. -/
theorem C4_checkin_unique_witness :
    attUnique [checkInRow 4 10 100 1] ∧
    handleCheckIn [checkInRow 4 10 100 1] 4 10 500 2 =
      Except.error AppError.Conflict ∧
    handleCheckIn [checkInRow 4 10 100 1] 5 10 500 2 =
      Except.ok ([checkInRow 4 10 100 1] ++ [checkInRow 5 10 500 2]) := by
  have h1 : attUnique [checkInRow 4 10 100 1] := by
    rw [attUnique]
    decide
  refine ⟨h1, ?_, ?_⟩
  · exact (C4_checkin_unique [checkInRow 4 10 100 1] 4 10 500 2 h1).1
      ⟨checkInRow 4 10 100 1, by decide, by decide, by decide⟩
  · exact ((C4_checkin_unique [checkInRow 4 10 100 1] 5 10 500 2 h1).2.1
      (by decide)).1

/- Concrete claimed behaviour of check-out with no prior check-in. -/

/-- C5 counterexample: the spec says a check-out with no attendance row
for (user, date) must fail with NotFound; evaluating the embedded
handler on an empty attendance table, the call is a silent early return
(no error of any kind is surfaced), not a NotFound failure. -/
theorem C5_checkout_no_record_counterexample :
    handleCheckOut [] 4 10 500 =
      (CheckOutResult.silentReturn, ([] : List AttendanceRow)) ∧
    CheckOutResult.silentReturn ≠
      CheckOutResult.failure AppError.NotFound := by
  decide

/-- C5 amended: when no attendance record exists for (user, date) the
check-out handler performs no write and surfaces no error at all (it
returns before reaching the store); when a record exists it sets
check_out = now on that record, leaving its date, check_in, status and
notes (indeed every other column) unchanged, and leaving all other rows
intact. -/
theorem C5_checkout_amended (db : List AttendanceRow) (u : Nat)
    (today now : Int) :
    (todayRecordOf db u today = none →
      handleCheckOut db u today now = (CheckOutResult.silentReturn, db)) ∧
    (∀ rec, todayRecordOf db u today = some rec →
      (handleCheckOut db u today now).1 = CheckOutResult.success ∧
      (handleCheckOut db u today now).2.length = db.length ∧
      ({ rec with check_out := some now } : AttendanceRow) ∈
        (handleCheckOut db u today now).2 ∧
      ∀ r ∈ db, r.id ≠ rec.id → r ∈ (handleCheckOut db u today now).2) := by
  constructor
  · intro h
    simp [handleCheckOut, h]
  · intro rec h
    have hmem : rec ∈ db := List.mem_of_find?_eq_some h
    refine ⟨by simp [handleCheckOut, h], ?_, ?_, ?_⟩
    · simp [handleCheckOut, h]
    · simp only [handleCheckOut, h]
      exact List.mem_map.mpr ⟨rec, hmem, by simp⟩
    · intro r hr hne
      simp only [handleCheckOut, h]
      exact List.mem_map.mpr ⟨r, hr, by simp [hne]⟩

/-- C5 amended witness: the silent-return branch on an empty table and
the update branch on a one-row table, both concrete. -/
theorem C5_checkout_amended_witness :
    handleCheckOut [] 4 10 500 =
      (CheckOutResult.silentReturn, ([] : List AttendanceRow)) ∧
    ({ checkInRow 4 10 100 9 with check_out := some 500 } : AttendanceRow) ∈
      (handleCheckOut [checkInRow 4 10 100 9] 4 10 500).2 := by
  constructor
  · exact (C5_checkout_amended [] 4 10 500).1 (by decide)
  · exact ((C5_checkout_amended [checkInRow 4 10 100 9] 4 10 500).2
      (checkInRow 4 10 100 9) (by decide)).2.2.1

/- ------------------------------------------------------------------ -/
/- Attendance listing (fetchAttendance)                               -/
/- ------------------------------------------------------------------ -/

inductive FilterType
| all
| week
| month
deriving DecidableEq, Repr

/- The date boundaries the page derives from new Date():
   startOfWeek/endOfWeek and startOfMonth/endOfMonth. -/
structure DateContext where
  weekStart : Int
  weekEnd : Int
  monthStart : Int
  monthEnd : Int
deriving DecidableEq, Repr

/- The gte/lte constraints added per filter choice. -/
def inDateFilter (f : FilterType) (ctx : DateContext) (d : Int) : Bool :=
  match f with
  | FilterType.all => true
  | FilterType.week =>
      decide (ctx.weekStart ≤ d) && decide (d ≤ ctx.weekEnd)
  | FilterType.month =>
      decide (ctx.monthStart ≤ d) && decide (d ≤ ctx.monthEnd)

/- fetchAttendance: one query ordered by date descending, with the date
   range applied for every caller and eq('user_id', profile.id) added
   only when the caller is not an admin. -/
def fetchAttendance (db : List AttendanceRow) (caller : Profile)
    (f : FilterType) (ctx : DateContext) : List AttendanceRow :=
  let q1 := db.filter (fun r => inDateFilter f ctx r.date)
  let q2 := if isAdmin caller then q1
            else q1.filter (fun r => decide (r.user_id = caller.id))
  q2.mergeSort (fun a b => decide (b.date ≤ a.date))

/-- C7: the attendance list returns exactly the records passing the
date-range filter whose user is the caller, unless the caller is an
admin, in which case the user constraint is dropped; the same date
filter applies in both cases. -/
theorem C7_fetchAttendance_scope (db : List AttendanceRow)
    (caller : Profile) (f : FilterType) (ctx : DateContext)
    (r : AttendanceRow) :
    r ∈ fetchAttendance db caller f ctx ↔
      r ∈ db ∧ inDateFilter f ctx r.date = true ∧
        (isAdmin caller = true ∨ r.user_id = caller.id) := by
  rw [fetchAttendance]
  rw [(List.mergeSort_perm _ _).mem_iff]
  by_cases h : isAdmin caller
  · simp [h, List.mem_filter, and_assoc]
  · have hf : isAdmin caller = false := Bool.eq_false_iff.mpr h
    simp [hf, List.mem_filter, and_assoc]
    tauto

/- ------------------------------------------------------------------ -/
/- Duration reporting (history cell and today-summary cell)           -/
/- ------------------------------------------------------------------ -/

/- JS Math.round: round half towards positive infinity. -/
def jsMathRound (q : ℚ) : Int := ⌊q + 1/2⌋

lemma jsMathRound_intCast (k : Int) : jsMathRound (k : ℚ) = k := by
  rw [jsMathRound, Int.floor_eq_iff]
  constructor <;> norm_num

lemma jsMathRound_close (q : ℚ) : |(jsMathRound q : ℚ) - q| ≤ 1/2 := by
  rw [abs_le]
  constructor
  · have h := Int.lt_floor_add_one (q + 1/2)
    rw [jsMathRound]
    push_cast at h ⊢
    linarith
  · have h := Int.floor_le (q + 1/2)
    rw [jsMathRound]
    push_cast at h ⊢
    linarith

/- History table Hours cell:
   ((new Date(check_out) - new Date(check_in)) / (1000*60*60)).toFixed(1)
   + 'h' when both timestamps exist, '-' otherwise.  toFixed(1) shows
   the value rounded to the nearest tenth; the cell is modelled as the
   displayed number of hours (none standing for the '-' marker). -/
def historyHoursCell (ci co : Option Int) : Option ℚ :=
  match ci, co with
  | some a, some b =>
      some ((jsMathRound (((b : ℚ) - a) * 10 / 3600000) : ℚ) / 10)
  | _, _ => none

/- Today-summary Hours cell:
   Math.round((check_out - check_in) / (1000*60*60)) + 'h' when both
   timestamps exist, '-' otherwise. -/
def summaryHoursCell (ci co : Option Int) : Option Int :=
  match ci, co with
  | some a, some b => some (jsMathRound (((b : ℚ) - a) / 3600000))
  | _, _ => none

/-- C8 counterexample: the claim wants every displayed duration to be
the fractional (check_out − check_in) in hours, but the today-summary
cell rounds to a whole hour: for check_in at t = 0 and check_out 8.5
hours later the exact duration is 17/2 h while the summary reports 9h. -/
theorem C8_summary_rounds_counterexample :
    summaryHoursCell (some 0) (some 30600000) = some 9 ∧
    ((30600000 : ℚ) - 0) / 3600000 = 17 / 2 ∧
    ((9 : ℚ) ≠ 17 / 2) := by
  refine ⟨?_, by norm_num, by norm_num⟩
  simp only [summaryHoursCell, jsMathRound]
  norm_num

/-- C8 amended: both duration displays show '-' whenever check_in or
check_out is null; the history cell reports (check_out − check_in) in
hours rounded to the nearest tenth (so it is within 1/20 h of the exact
fractional duration, and equals it exactly whenever the duration is a
whole number of hours, e.g. 8.0h for 09:00-17:00), while the
today-summary cell reports the duration rounded to the nearest whole
hour (within 1/2 h of exact, and exact on whole-hour durations). -/
theorem C8_duration_amended (ci co : Int) :
    historyHoursCell none (some co) = none ∧
    historyHoursCell (some ci) none = none ∧
    summaryHoursCell none (some co) = none ∧
    summaryHoursCell (some ci) none = none ∧
    (∃ h, historyHoursCell (some ci) (some co) = some h ∧
      |h - ((co : ℚ) - ci) / 3600000| ≤ 1 / 20) ∧
    (∃ n, summaryHoursCell (some ci) (some co) = some n ∧
      |(n : ℚ) - ((co : ℚ) - ci) / 3600000| ≤ 1 / 2) ∧
    ((3600000 : Int) ∣ (co - ci) →
      historyHoursCell (some ci) (some co) =
        some (((co : ℚ) - ci) / 3600000) ∧
      ∃ n, summaryHoursCell (some ci) (some co) = some n ∧
        (n : ℚ) = ((co : ℚ) - ci) / 3600000) := by
  refine ⟨rfl, rfl, rfl, rfl, ?_, ?_, ?_⟩
  · refine ⟨(jsMathRound (((co : ℚ) - ci) * 10 / 3600000) : ℚ) / 10,
      rfl, ?_⟩
    have hb := jsMathRound_close (((co : ℚ) - ci) * 10 / 3600000)
    rw [abs_le] at hb ⊢
    have h10 : ((co : ℚ) - ci) * 10 / 3600000 =
        10 * (((co : ℚ) - ci) / 3600000) := by ring
    constructor
    · linarith [hb.1, hb.2, h10]
    · linarith [hb.1, hb.2, h10]
  · exact ⟨jsMathRound (((co : ℚ) - ci) / 3600000), rfl,
      jsMathRound_close _⟩
  · rintro ⟨k, hk⟩
    have hq : ((co : ℚ) - ci) = 3600000 * k := by
      have := congrArg (fun z : Int => (z : ℚ)) hk
      push_cast at this
      linarith
    have he : ((co : ℚ) - ci) / 3600000 = (k : ℚ) := by
      rw [hq]
      field_simp
    constructor
    · simp only [historyHoursCell, Option.some.injEq]
      have h1 : ((co : ℚ) - ci) * 10 / 3600000 = ((10 * k : Int) : ℚ) := by
        rw [hq]
        push_cast
        field_simp
        ring
      rw [h1, jsMathRound_intCast, he]
      push_cast
      ring
    · refine ⟨jsMathRound (((co : ℚ) - ci) / 3600000), rfl, ?_⟩
      rw [he, jsMathRound_intCast]

/-- C8 amended witness: a 09:00-17:00 day (28800000 ms) reports the
exact 8-hour duration in both cells. -/
theorem C8_duration_amended_witness :
    historyHoursCell (some 0) (some 28800000) =
      some (((28800000 : ℚ) - 0) / 3600000) ∧
    ∃ n, summaryHoursCell (some 0) (some 28800000) = some n ∧
      (n : ℚ) = ((28800000 : ℚ) - 0) / 3600000 :=
  (C8_duration_amended 0 28800000).2.2.2.2.2.2 ⟨8, by norm_num⟩

/- ------------------------------------------------------------------ -/
/- Payroll calculator (schema generated column + Employees page)      -/
/- ------------------------------------------------------------------ -/

/- A row of public.payroll.  net_salary is stored (GENERATED ALWAYS ..
   STORED); the write paths below recompute it exactly as the column
   definition does, so it can never be set independently. -/
structure PayrollRow where
  id : Nat
  user_id : Nat
  basic_salary : Int
  housing_allowance : Option Int
  transport_allowance : Option Int
  other_allowances : Option Int
  tax_deduction : Option Int
  other_deductions : Option Int
  net_salary : Int
  effective_date : Int
deriving DecidableEq, Repr

/- The generated column:
   basic_salary + COALESCE(housing_allowance, 0)
   + COALESCE(transport_allowance, 0) + COALESCE(other_allowances, 0)
   - COALESCE(tax_deduction, 0) - COALESCE(other_deductions, 0). -/
def generatedNetSalary (basic : Int)
    (housing transport otherAllow tax otherDed : Option Int) : Int :=
  basic + housing.getD 0 + transport.getD 0 + otherAllow.getD 0
    - tax.getD 0 - otherDed.getD 0

/- The payrollData state of the Employees page dialog: exactly the six
   component fields; there is no net_salary input anywhere in the
   payload the page sends. -/
structure PayrollInput where
  basic_salary : Int
  housing_allowance : Int
  transport_allowance : Int
  other_allowances : Int
  tax_deduction : Int
  other_deductions : Int
deriving DecidableEq, Repr

/- What the generated column yields for a row whose six components are
   the caller's payload (all six sent non-null). -/
def inputNetSalary (inp : PayrollInput) : Int :=
  generatedNetSalary inp.basic_salary (some inp.housing_allowance)
    (some inp.transport_allowance) (some inp.other_allowances)
    (some inp.tax_deduction) (some inp.other_deductions)

/- The Estimated Net Salary preview computed client-side in the dialog:
   basic_salary + housing_allowance + transport_allowance
   + other_allowances - tax_deduction - other_deductions. -/
def clientEstimatedNet (inp : PayrollInput) : Int :=
  inp.basic_salary + inp.housing_allowance + inp.transport_allowance
    + inp.other_allowances - inp.tax_deduction - inp.other_deductions

def payrollRowsFor (db : List PayrollRow) (userId : Nat) :
    List PayrollRow :=
  db.filter (fun r => decide (r.user_id = userId))

/- handleManagePayroll's lookup: eq('user_id', employee.id)
   .order('effective_date', desc).maybeSingle(), with the error field
   destructured away.  maybeSingle yields the row when the query
   returns exactly one, null when it returns none, and an error -
   discarded here, leaving data null - when it returns several; so the
   page sees a row exactly when the employee has exactly one. -/
def managePayrollLookup (db : List PayrollRow) (userId : Nat) :
    Option PayrollRow :=
  match payrollRowsFor db userId with
  | [r] => some r
  | _ => none

/- The update branch of handleSavePayroll: the six components plus
   effective_date = today, applied to the row with the remembered id;
   the store recomputes the generated net_salary from the new
   components. -/
def updatedPayrollRow (r : PayrollRow) (inp : PayrollInput)
    (today : Int) : PayrollRow :=
  { r with
    basic_salary := inp.basic_salary
    housing_allowance := some inp.housing_allowance
    transport_allowance := some inp.transport_allowance
    other_allowances := some inp.other_allowances
    tax_deduction := some inp.tax_deduction
    other_deductions := some inp.other_deductions
    net_salary := inputNetSalary inp
    effective_date := today }

/- The insert branch: user_id, the six components, effective_date =
   today; net_salary generated by the store. -/
def newPayrollRow (newId userId : Nat) (inp : PayrollInput)
    (today : Int) : PayrollRow :=
  { id := newId
    user_id := userId
    basic_salary := inp.basic_salary
    housing_allowance := some inp.housing_allowance
    transport_allowance := some inp.transport_allowance
    other_allowances := some inp.other_allowances
    tax_deduction := some inp.tax_deduction
    other_deductions := some inp.other_deductions
    net_salary := inputNetSalary inp
    effective_date := today }

def savePayrollUpdate (db : List PayrollRow) (rowId : Nat)
    (inp : PayrollInput) (today : Int) : List PayrollRow :=
  db.map fun r =>
    if r.id = rowId then updatedPayrollRow r inp today else r

lemma savePayrollUpdate_eq (db : List PayrollRow) (rowId : Nat)
    (inp : PayrollInput) (today : Int) :
    savePayrollUpdate db rowId inp today =
      db.map (fun r =>
        if r.id = rowId then updatedPayrollRow r inp today else r) := rfl

lemma updatedPayrollRow_user_id (r : PayrollRow) (inp : PayrollInput)
    (today : Int) : (updatedPayrollRow r inp today).user_id = r.user_id :=
  rfl

/- handleSavePayroll: update the remembered row when the lookup found
   one, insert a fresh row otherwise. -/
def handleSavePayroll (db : List PayrollRow) (targetUser : Nat)
    (inp : PayrollInput) (today : Int) (newId : Nat) :
    List PayrollRow :=
  match managePayrollLookup db targetUser with
  | some row => savePayrollUpdate db row.id inp today
  | none => db ++ [newPayrollRow newId targetUser inp today]

/- Every stored row carries the generated value of its components. -/
def netInvariant (db : List PayrollRow) : Prop :=
  ∀ r ∈ db, r.net_salary =
    generatedNetSalary r.basic_salary r.housing_allowance
      r.transport_allowance r.other_allowances r.tax_deduction
      r.other_deductions

/-- C3: after a payroll save (either branch), every record still
satisfies net_salary = basic + housing + transport + other allowances
- tax - other deductions (nulls as 0), and any row the save wrote
carries exactly the generated value of the six caller-supplied
components - the payload has no net_salary field, so the net can never
be caller-chosen. -/
theorem C3_net_salary_generated (db : List PayrollRow) (target : Nat)
    (inp : PayrollInput) (today : Int) (newId : Nat)
    (hinv : netInvariant db) :
    netInvariant (handleSavePayroll db target inp today newId) ∧
    ∀ r ∈ handleSavePayroll db target inp today newId, r ∉ db →
      r.net_salary = inputNetSalary inp := by
  rcases hlk : managePayrollLookup db target with _ | row
  · have hins : handleSavePayroll db target inp today newId =
        db ++ [newPayrollRow newId target inp today] := by
      rw [handleSavePayroll, hlk]
    rw [hins]
    constructor
    · intro r hr
      rcases List.mem_append.mp hr with hr1 | hr2
      · exact hinv r hr1
      · have heq : r = newPayrollRow newId target inp today :=
          List.mem_singleton.mp hr2
        subst heq
        simp [newPayrollRow, inputNetSalary]
    · intro r hr hnot
      rcases List.mem_append.mp hr with hr1 | hr2
      · exact absurd hr1 hnot
      · have heq : r = newPayrollRow newId target inp today :=
          List.mem_singleton.mp hr2
        subst heq
        rfl
  · have hsave : handleSavePayroll db target inp today newId =
        savePayrollUpdate db row.id inp today := by
      rw [handleSavePayroll, hlk]
    rw [hsave, savePayrollUpdate_eq]
    constructor
    · intro r hr
      rcases List.mem_map.mp hr with ⟨r0, hr0, hr0eq⟩
      by_cases h : r0.id = row.id
      · rw [← hr0eq]
        simp [h, updatedPayrollRow, inputNetSalary]
      · rw [← hr0eq]
        simp only [h, if_false]
        exact hinv r0 hr0
    · intro r hr hnot
      rcases List.mem_map.mp hr with ⟨r0, hr0, hr0eq⟩
      by_cases h : r0.id = row.id
      · rw [← hr0eq]
        simp [h, updatedPayrollRow]
      · rw [← hr0eq] at hnot ⊢
        simp only [h, if_false] at hnot ⊢
        exact absurd hr0 hnot

/-- C3 witness: the spec's payroll scenario (basic 3000, housing 500,
transport 200, other 0, tax 300, other deductions 50) saved for user 5
into an empty table leaves every stored record carrying the generated
net salary. -/
theorem C3_net_salary_generated_witness :
    netInvariant (handleSavePayroll [] 5 ⟨3000, 500, 200, 0, 300, 50⟩
      100 1) :=
  (C3_net_salary_generated [] 5 ⟨3000, 500, 200, 0, 300, 50⟩ 100 1
    (fun r hr => absurd hr (List.not_mem_nil r))).1

/- Two historical payroll rows for the same user: a state the schema
   permits (there is no uniqueness constraint on payroll.user_id). -/
def payrollRowA : PayrollRow :=
  { id := 1, user_id := 5, basic_salary := 3000
    housing_allowance := some 500, transport_allowance := some 200
    other_allowances := some 0, tax_deduction := some 300
    other_deductions := some 50, net_salary := 3350
    effective_date := 10 }

def payrollRowB : PayrollRow :=
  { payrollRowA with id := 2, effective_date := 20 }

/-- C6 counterexample: the claim says that whenever a payroll record
exists for the target the save updates the most recent one without
creating a second row.  With two historical rows present (which the
schema permits), maybeSingle rejects the multi-row result, the page
discards the error and treats the lookup as empty, and the save
inserts a third row; the most recent row (effective_date 20) survives
unchanged instead of being updated. -/
theorem C6_multi_row_counterexample :
    payrollRowsFor [payrollRowA, payrollRowB] 5 ≠ [] ∧
    ([payrollRowA, payrollRowB] : List PayrollRow).length = 2 ∧
    (handleSavePayroll [payrollRowA, payrollRowB] 5
      ⟨3200, 500, 200, 0, 300, 50⟩ 100 99).length = 3 ∧
    payrollRowB ∈ handleSavePayroll [payrollRowA, payrollRowB] 5
      ⟨3200, 500, 200, 0, 300, 50⟩ 100 99 := by
  decide

lemma payrollRowsFor_savePayrollUpdate (db : List PayrollRow)
    (rowId : Nat) (inp : PayrollInput) (today : Int) (target : Nat) :
    payrollRowsFor (savePayrollUpdate db rowId inp today) target =
      (payrollRowsFor db target).map
        (fun r => if r.id = rowId then updatedPayrollRow r inp today
                  else r) := by
  induction db with
  | nil => rfl
  | cons a tl ih =>
      simp only [savePayrollUpdate_eq, payrollRowsFor, List.map_cons,
        List.filter_cons] at ih ⊢
      by_cases h : a.id = rowId
      · by_cases h2 : a.user_id = target
        · simp [h, h2, updatedPayrollRow_user_id, ih]
        · simp [h, h2, updatedPayrollRow_user_id, ih]
      · by_cases h2 : a.user_id = target
        · simp [h, h2, ih]
        · simp [h, h2, ih]

/-- C6 amended: when exactly one payroll record exists for the target
the save updates that record's six components and resets its effective
date to today without creating another row (and rows of other users
are untouched); when none exists it inserts exactly one new record
with effective date today; but when several records exist the
single-row lookup fails, its error is discarded, and the save inserts
an additional record instead of updating the most recent one. -/
theorem C6_payroll_upsert_amended (db : List PayrollRow) (target : Nat)
    (inp : PayrollInput) (today : Int) (newId : Nat)
    (hids : (db.map (fun r => r.id)).Nodup) :
    (∀ row, payrollRowsFor db target = [row] →
      (handleSavePayroll db target inp today newId).length = db.length ∧
      payrollRowsFor (handleSavePayroll db target inp today newId)
          target = [updatedPayrollRow row inp today] ∧
      ∀ r ∈ db, r.user_id ≠ target →
        r ∈ handleSavePayroll db target inp today newId) ∧
    (payrollRowsFor db target = [] →
      handleSavePayroll db target inp today newId =
        db ++ [newPayrollRow newId target inp today]) ∧
    (2 ≤ (payrollRowsFor db target).length →
      handleSavePayroll db target inp today newId =
        db ++ [newPayrollRow newId target inp today]) := by
  refine ⟨?_, ?_, ?_⟩
  · intro row hrow
    have hlk : managePayrollLookup db target = some row := by
      rw [managePayrollLookup, hrow]
    have hrowdb : row ∈ db ∧ row.user_id = target := by
      have hmem : row ∈ payrollRowsFor db target := by
        rw [hrow]
        exact List.mem_singleton_self row
      have h2 := List.mem_filter.mp hmem
      exact ⟨h2.1, of_decide_eq_true h2.2⟩
    have hsave : handleSavePayroll db target inp today newId =
        savePayrollUpdate db row.id inp today := by
      rw [handleSavePayroll, hlk]
    rw [hsave]
    refine ⟨?_, ?_, ?_⟩
    · rw [savePayrollUpdate_eq]
      simp
    · rw [payrollRowsFor_savePayrollUpdate, hrow, List.map_cons,
        List.map_nil, if_pos rfl]
    · intro r hr hne
      have hneid : r.id ≠ row.id := by
        intro hid
        exact hne (List.inj_on_of_nodup_map hids hr hrowdb.1 hid ▸
          hrowdb.2)
      rw [savePayrollUpdate_eq]
      exact List.mem_map.mpr ⟨r, hr, by simp [hneid]⟩
  · intro hrow
    rw [handleSavePayroll, managePayrollLookup, hrow]
  · intro hlen
    rw [handleSavePayroll]
    rcases hrow : payrollRowsFor db target with _ | ⟨a, _ | ⟨b, tl⟩⟩
    · rw [managePayrollLookup, hrow]
    · rw [hrow] at hlen
      simp at hlen
    · rw [managePayrollLookup, hrow]

/-- C6 amended witness: the spec's overwrite scenario - user 5 has one
record (basic 3000, effective day 10); the admin saves basic 3200 on
day 100; the same single row now carries the new components, net 3550
and effective date 100, with no second row. -/
theorem C6_payroll_upsert_amended_witness :
    (handleSavePayroll [payrollRowA] 5 ⟨3200, 500, 200, 0, 300, 50⟩
      100 99).length = 1 ∧
    payrollRowsFor (handleSavePayroll [payrollRowA] 5
        ⟨3200, 500, 200, 0, 300, 50⟩ 100 99) 5 =
      [updatedPayrollRow payrollRowA ⟨3200, 500, 200, 0, 300, 50⟩ 100] := by
  have h := (C6_payroll_upsert_amended [payrollRowA] 5
      ⟨3200, 500, 200, 0, 300, 50⟩ 100 99 (by decide)).1 payrollRowA
      (by decide)
  exact ⟨h.1, h.2.1⟩

/-- C10: the Estimated Net Salary preview computed client-side in the
payroll dialog agrees with the store's generated net_salary column on
every assignment of the six components. -/
theorem C10_estimated_net_matches_store (inp : PayrollInput) :
    clientEstimatedNet inp =
      generatedNetSalary inp.basic_salary (some inp.housing_allowance)
        (some inp.transport_allowance) (some inp.other_allowances)
        (some inp.tax_deduction) (some inp.other_deductions) := by
  simp [clientEstimatedNet, generatedNetSalary]

/- ------------------------------------------------------------------ -/
/- Profile self-editing (Profile page: handleSave)                    -/
/- ------------------------------------------------------------------ -/

/- The formData state of the Profile page: the eight editable inputs.
   role, employee_id and email never appear in the form at all. -/
structure ProfileForm where
  first_name : String
  last_name : String
  phone : String
  address : String
  department : String
  position : String
  hire_date : String
  profile_picture_url : String
deriving DecidableEq, Repr

/- An UPDATE payload against profiles: a column is either sent with a
   value or absent from the payload. -/
structure ProfileUpdate where
  first_name : Option String
  last_name : Option String
  phone : Option String
  address : Option String
  department : Option String
  position : Option String
  hire_date : Option String
  profile_picture_url : Option String
deriving DecidableEq, Repr

/- updateData from handleSave: an admin sends the whole formData, an
   employee only phone, address and profile_picture_url. -/
def updateData (callerIsAdmin : Bool) (f : ProfileForm) : ProfileUpdate :=
  if callerIsAdmin then
    { first_name := some f.first_name
      last_name := some f.last_name
      phone := some f.phone
      address := some f.address
      department := some f.department
      position := some f.position
      hire_date := some f.hire_date
      profile_picture_url := some f.profile_picture_url }
  else
    { first_name := none
      last_name := none
      phone := some f.phone
      address := some f.address
      department := none
      position := none
      hire_date := none
      profile_picture_url := some f.profile_picture_url }

/- Applying an UPDATE payload to a profiles row: columns absent from
   the payload keep their stored value. -/
def applyProfileUpdate (u : ProfileUpdate) (p : Profile) : Profile :=
  { p with
    first_name := match u.first_name with
                  | some v => some v
                  | none => p.first_name
    last_name := match u.last_name with
                 | some v => some v
                 | none => p.last_name
    phone := match u.phone with
             | some v => some v
             | none => p.phone
    address := match u.address with
               | some v => some v
               | none => p.address
    department := match u.department with
                  | some v => some v
                  | none => p.department
    position := match u.position with
                | some v => some v
                | none => p.position
    hire_date := match u.hire_date with
                 | some v => some v
                 | none => p.hire_date
    profile_picture_url := match u.profile_picture_url with
                           | some v => some v
                           | none => p.profile_picture_url }

/- handleSave: update(updateData).eq('id', profile.id); the profiles
   UPDATE policy (auth.uid() = id OR is_admin) admits the row because
   the filter targets the caller's own id. -/
def handleSave (db : List Profile) (caller : Profile)
    (f : ProfileForm) : List Profile :=
  db.map fun p =>
    if p.id = caller.id then
      applyProfileUpdate (updateData (isAdmin caller) f) p
    else p

/-- C9: when a non-admin employee saves their own profile, the update
touches at most phone, address and profile_picture_url; role,
department, position, hire_date, first_name, last_name, employee_id,
email and id are unchanged on every row, and rows other than the
caller's are untouched entirely. -/
theorem C9_employee_profile_frame (db : List Profile) (caller : Profile)
    (f : ProfileForm) (hrole : isAdmin caller = false) :
    ∀ (i : Nat) (p : Profile), db[i]? = some p →
      ∃ q : Profile, (handleSave db caller f)[i]? = some q ∧
        q.id = p.id ∧ q.employee_id = p.employee_id ∧
        q.email = p.email ∧ q.role = p.role ∧
        q.first_name = p.first_name ∧ q.last_name = p.last_name ∧
        q.department = p.department ∧ q.position = p.position ∧
        q.hire_date = p.hire_date ∧
        (p.id ≠ caller.id → q = p) ∧
        (p.id = caller.id → q.phone = some f.phone ∧
          q.address = some f.address ∧
          q.profile_picture_url = some f.profile_picture_url) := by
  intro i p hp
  refine ⟨if p.id = caller.id then
      applyProfileUpdate (updateData (isAdmin caller) f) p else p,
    ?_, ?_⟩
  · rw [handleSave, List.getElem?_map, hp]
    rfl
  · by_cases h : p.id = caller.id
    · simp [h, applyProfileUpdate, updateData, hrole]
    · simp [h]

/- A concrete non-admin profile and form for the frame witness. -/
def employeeCaller : Profile :=
  { id := 7, employee_id := "EMP007", email := "eve@dayflow.test"
    role := UserRole.employee, first_name := some "Eve"
    last_name := some "Low", phone := none, address := none
    department := some "Sales", position := some "Rep"
    hire_date := some "2024-01-01", profile_picture_url := none }

def sampleProfileForm : ProfileForm :=
  { first_name := "Eve", last_name := "Low", phone := "123"
    address := "1 Main St", department := "Sales", position := "Rep"
    hire_date := "2024-01-01", profile_picture_url := "pic.png" }

/-- C9 witness: the employee saves their own row; the saved row keeps
its role and department and carries the new phone. -/
theorem C9_employee_profile_frame_witness :
    ∃ q, (handleSave [employeeCaller] employeeCaller
        sampleProfileForm)[0]? = some q ∧
      q.role = employeeCaller.role ∧
      q.department = employeeCaller.department ∧
      q.phone = some "123" := by
  obtain ⟨q, hq, hid, hemp, hem, hrole2, hfn, hln, hdep, hpos, hhd,
      hne, hown⟩ :=
    C9_employee_profile_frame [employeeCaller] employeeCaller
      sampleProfileForm (by decide) 0 employeeCaller (by decide)
  exact ⟨q, hq, hrole2, hdep, (hown rfl).1⟩

end Dayflow
